import Mathlib

/-!
Verification development for the LEDGER-X personal finance backend
(`src/main.py`).  The HTTP handlers of `main.py` are embedded as pure Lean
functions over an explicit store; the `crud`, `models` and `schemas`
modules referenced by `main.py` are not part of the source tree, so the
operations they provide are modelled from the specification (each such
definition carries a doc comment starting with `Modelled from the spec:`).
HTTP error outcomes are represented as `Except Nat`, carrying the status
code (401, 400, 404).
-/

/-- A calendar date as stored on a ledger entry. -/
structure LDate where
  year : Nat
  month : Nat
  day : Nat
deriving DecidableEq, Repr

/-- A user record of the credential store (`models.User`): unique username
and a stored password hash.  Modelled from the spec: `models.py` is not in
the source tree. -/
structure UserRec where
  id : Nat
  username : String
  hashed_password : String
deriving DecidableEq, Repr

/-- A ledger entry (`models.Finance`): amount (signed), category, date,
description, owning user reference.  Modelled from the spec: `models.py`
is not in the source tree. -/
structure Entry where
  id : Nat
  amount : Int
  category : String
  date : LDate
  description : String
  user_id : Nat
deriving DecidableEq, Repr

/-- A budget record (`models.Budget`): month, year, limit amount, owning
user reference.  Modelled from the spec: `models.py` is not in the source
tree. -/
structure BudgetRec where
  id : Nat
  month : Nat
  year : Nat
  limit : Int
  user_id : Nat
deriving DecidableEq, Repr

/-- The request payload for creating or updating a ledger entry
(`schemas.FinanceCreate`).  Modelled from the spec: `schemas.py` is not in
the source tree. -/
structure FinanceCreate where
  amount : Int
  category : String
  date : LDate
  description : String
deriving DecidableEq, Repr

/-- The request payload for registration (`schemas.UserCreate`).
Modelled from the spec: `schemas.py` is not in the source tree. -/
structure UserCreate where
  username : String
  password : String
deriving DecidableEq, Repr

/-- The request payload for creating a budget (`schemas.BudgetCreate`).
Modelled from the spec: `schemas.py` is not in the source tree. -/
structure BudgetCreate where
  month : Nat
  year : Nat
  limit : Int
deriving DecidableEq, Repr

/-- The database state: user, entry and budget tables plus the id
counters the persistence layer would assign. -/
structure Store where
  users : List UserRec
  entries : List Entry
  budgets : List BudgetRec
  nextUserId : Nat
  nextEntryId : Nat
  nextBudgetId : Nat
deriving DecidableEq, Repr

/-- The empty database, as produced by `Base.metadata.create_all` on a
fresh engine. -/
def Store.empty : Store :=
  { users := [], entries := [], budgets := [],
    nextUserId := 1, nextEntryId := 1, nextBudgetId := 1 }

/-- Modelled from the spec: the one-way password hash of the Password
Hasher (`pwd_context.hash`, bcrypt).  The marker keeps hash values
disjoint from plaintexts in the model. -/
def hashPassword (p : String) : String :=
  String.append "bcrypt$" p

/-- Modelled from the spec: `pwd_context.verify(plain, stored)` of the
Password Hasher — hash comparison delegated to the hashing primitive. -/
def verifyPassword (plain stored : String) : Bool :=
  hashPassword plain == stored

namespace crud

/-- Modelled from the spec: `crud.get_user_by_username` of the Credential
Store — looks a user up by username. -/
def get_user_by_username (db : Store) (username : String) : Option UserRec :=
  db.users.find? (fun u => u.username == username)

/-- Modelled from the spec: `crud.create_user` — stores a one-way hash of
the password (never the plaintext) and returns the new user record. -/
def create_user (db : Store) (user : UserCreate) : UserRec × Store :=
  let u : UserRec :=
    { id := db.nextUserId, username := user.username,
      hashed_password := hashPassword user.password }
  (u, { db with users := db.users ++ [u], nextUserId := db.nextUserId + 1 })

/-- Modelled from the spec: `crud.create` — inserts a ledger entry owned
by the requesting user. -/
def create (db : Store) (data : FinanceCreate) (user_id : Nat) : Entry × Store :=
  let e : Entry :=
    { id := db.nextEntryId, amount := data.amount, category := data.category,
      date := data.date, description := data.description, user_id := user_id }
  (e, { db with entries := db.entries ++ [e], nextEntryId := db.nextEntryId + 1 })

/-- Modelled from the spec: `crud.get` — lists the requesting user's
entries, optionally filtered by category. -/
def get (db : Store) (user_id : Nat) (category : Option String) : List Entry :=
  db.entries.filter (fun e =>
    e.user_id == user_id &&
      match category with
      | none => true
      | some c => e.category == c)

/-- Whether an entry matches a given id for a given user. -/
def entryKey (id user_id : Nat) (e : Entry) : Bool :=
  e.id == id && e.user_id == user_id

/-- Modelled from the spec: `crud.update` — updates the entry with the
given id owned by the requesting user, returning `none` when no such
entry exists for that user. -/
def update (db : Store) (id : Nat) (data : FinanceCreate) (user_id : Nat) :
    Option (Entry × Store) :=
  match db.entries.find? (entryKey id user_id) with
  | none => none
  | some e =>
      let updated : Entry :=
        { e with amount := data.amount, category := data.category,
                 date := data.date, description := data.description }
      some (updated,
        { db with entries :=
            db.entries.map (fun x => if entryKey id user_id x then updated else x) })

/-- Modelled from the spec: `crud.delete` — deletes the entry with the
given id owned by the requesting user, returning `none` when no such
entry exists for that user. -/
def delete (db : Store) (id : Nat) (user_id : Nat) : Option Store :=
  match db.entries.find? (entryKey id user_id) with
  | none => none
  | some _ =>
      some { db with entries := db.entries.filter (fun x => !entryKey id user_id x) }

end crud

/-! ### Aggregation engine and budgets -/

/-- Whether an entry belongs to the given user and is dated in the given
month and year. -/
def inMonth (month year user_id : Nat) (e : Entry) : Bool :=
  e.user_id == user_id && e.date.month == month && e.date.year == year

/-- The monthly summary reported by `GET /api/summary`. -/
structure MonthlySummary where
  total_income : Int
  total_expense : Int
  net : Int
deriving DecidableEq, Repr

/-- One accumulation step of the monthly summary: positive amounts add to
income, negative amounts add their absolute value to expense, entries
outside the window (or zero amounts) are skipped. -/
def summaryStep (month year user_id : Nat) (acc : Int × Int) (e : Entry) :
    Int × Int :=
  if inMonth month year user_id e then
    if 0 < e.amount then (acc.1 + e.amount, acc.2)
    else if e.amount < 0 then (acc.1, acc.2 - e.amount)
    else acc
  else acc

/-- Whether an entry is an expense of the given user in the given month
and year. -/
def isExpense (month year user_id : Nat) (e : Entry) : Bool :=
  inMonth month year user_id e && decide (e.amount < 0)

namespace crud

/-- Modelled from the spec: `crud.get_monthly_summary` of the Aggregation
Engine — total income, total expense and net for the user's entries in
the given (month, year). -/
def get_monthly_summary (db : Store) (month year user_id : Nat) :
    MonthlySummary :=
  let t := db.entries.foldl (summaryStep month year user_id) (0, 0)
  { total_income := t.1, total_expense := t.2, net := t.1 - t.2 }

/-- Modelled from the spec: `crud.get_category_expenses` of the
Aggregation Engine — expense total grouped by category for the user's
entries in (month, year). -/
def get_category_expenses (db : Store) (month year user_id : Nat) :
    List (String × Int) :=
  let matching := db.entries.filter (isExpense month year user_id)
  let cats := (matching.map Entry.category).dedup
  cats.map (fun c =>
    (c, ((matching.filter (fun e => e.category == c)).map
          (fun e => -e.amount)).sum))

/-- Modelled from the spec: `crud.get_daily_spending` of the Aggregation
Engine — expense total per calendar day within the month for the user. -/
def get_daily_spending (db : Store) (month year user_id : Nat) :
    List (Nat × Int) :=
  let matching := db.entries.filter (isExpense month year user_id)
  let days := (matching.map (fun e => e.date.day)).dedup
  days.map (fun d =>
    (d, ((matching.filter (fun e => e.date.day == d)).map
          (fun e => -e.amount)).sum))

/-- Modelled from the spec: `crud.get_yearly_expenses` of the Aggregation
Engine — expense total per month across the given year, 12 buckets,
zero-filled for months with no entries. -/
def get_yearly_expenses (db : Store) (year user_id : Nat) : List Int :=
  (List.range 12).map (fun m =>
    ((db.entries.filter (isExpense (m + 1) year user_id)).map
      (fun e => -e.amount)).sum)

/-- Modelled from the spec: `crud.create_budget` — inserts a budget
record owned by the requesting user. -/
def create_budget (db : Store) (budget : BudgetCreate) (user_id : Nat) :
    BudgetRec × Store :=
  let b : BudgetRec :=
    { id := db.nextBudgetId, month := budget.month, year := budget.year,
      limit := budget.limit, user_id := user_id }
  (b, { db with budgets := db.budgets ++ [b],
                nextBudgetId := db.nextBudgetId + 1 })

/-- Modelled from the spec: `crud.get_budget` — the user's budget for
(month, year), or `none` when absent. -/
def get_budget (db : Store) (month year user_id : Nat) : Option BudgetRec :=
  db.budgets.find? (fun b =>
    b.user_id == user_id && b.month == month && b.year == year)

end crud

/-! ### Token model

The `jose` JWT library is external.  A token is either well formed and
signed with some key, or malformed; decoding checks the signature against
the expected key and the expiry against the clock, exactly the failures
`jwt.decode` reports as `JWTError`. -/

/-- The claims carried by a token: optional subject and expiry instant
(seconds). -/
structure TokenPayload where
  sub : Option String
  exp : Nat
deriving DecidableEq, Repr

/-- A bearer token as presented by a client: well formed and signed with
some key, or malformed. -/
inductive Token where
  | signed (key : String) (payload : TokenPayload)
  | malformed (raw : String)
deriving DecidableEq, Repr

/-- `jwt.decode token key` at clock instant `now`: fails (`JWTError`) when
the token is malformed, the signature key does not match, or the token is
expired; otherwise yields the payload. -/
def jwtDecode (t : Token) (key : String) (now : Nat) : Option TokenPayload :=
  match t with
  | .malformed _ => none
  | .signed k p => if k = key ∧ now < p.exp then some p else none

/-- `SECRET_KEY` from `main.py`. -/
def SECRET_KEY : String := "your_secret_key_change_me_in_production"

/-- `ACCESS_TOKEN_EXPIRE_MINUTES` from `main.py`. -/
def ACCESS_TOKEN_EXPIRE_MINUTES : Nat := 30

/-- `create_access_token` from `main.py`: copies the data, adds an expiry
of `now` plus the given delta (default 15 minutes), and signs with
`SECRET_KEY`.  The `data` dict is `{"sub": username}` at the only call
site; we model it as the optional subject claim.  Times are in seconds. -/
def create_access_token (sub : Option String) (expires_delta : Option Nat)
    (now : Nat) : Token :=
  let expire : Nat :=
    match expires_delta with
    | some d => now + d
    | none => now + 15 * 60
  Token.signed SECRET_KEY { sub := sub, exp := expire }

/-- `get_current_user` from `main.py`: decode the token (401 on
`JWTError`), require a subject claim (401 when absent), resolve it against
the credential store (401 when it resolves to no user), and return the
user record. -/
def get_current_user (token : Token) (db : Store) (now : Nat) :
    Except Nat UserRec :=
  match jwtDecode token SECRET_KEY now with
  | none => .error 401
  | some payload =>
      match payload.sub with
      | none => .error 401
      | some username =>
          match crud.get_user_by_username db username with
          | none => .error 401
          | some user => .ok user

/-- `register` from `main.py`: 400 when the username is already
registered, otherwise delegates to `crud.create_user`.  On error the
store is returned unchanged. -/
def register (db : Store) (user : UserCreate) : Except Nat UserRec × Store :=
  match crud.get_user_by_username db user.username with
  | some _ => (.error 400, db)
  | none =>
      let (u, db2) := crud.create_user db user
      (.ok u, db2)

/-- `login` from `main.py` (`POST /token`): look the user up, verify the
password (401 on unknown user or hash mismatch), and mint an access token
with a 30 minute expiry. -/
def login (db : Store) (username password : String) (now : Nat) :
    Except Nat Token :=
  match crud.get_user_by_username db username with
  | none => .error 401
  | some user =>
      if verifyPassword password user.hashed_password then
        .ok (create_access_token (some user.username)
              (some (ACCESS_TOKEN_EXPIRE_MINUTES * 60)) now)
      else
        .error 401

/-! ### Route handlers (post-authentication bodies of `main.py`)

Each of these is the body of a `main.py` route function after FastAPI has
resolved `Depends(get_current_user)` into `current_user`; mutating
handlers return the new store alongside the response. -/

namespace main

/-- `POST /ledger/` (`create` in `main.py`). -/
def create (data : FinanceCreate) (db : Store) (current_user : UserRec) :
    Entry × Store :=
  crud.create db data current_user.id

/-- `GET /ledger/` (`get` in `main.py`). -/
def get (category : Option String) (db : Store) (current_user : UserRec) :
    List Entry :=
  crud.get db current_user.id category

/-- `PUT /ledger/{id}` (`update` in `main.py`): 404 when `crud.update`
finds no entry with that id for that user. -/
def update (id : Nat) (data : FinanceCreate) (db : Store)
    (current_user : UserRec) : Except Nat Entry × Store :=
  match crud.update db id data current_user.id with
  | none => (.error 404, db)
  | some (e, db2) => (.ok e, db2)

/-- `DELETE /ledger/{id}` (`delete` in `main.py`): 404 when `crud.delete`
finds no entry with that id for that user. -/
def delete (id : Nat) (db : Store) (current_user : UserRec) :
    Except Nat String × Store :=
  match crud.delete db id current_user.id with
  | none => (.error 404, db)
  | some db2 => (.ok "Record deleted successfully", db2)

/-- `GET /api/summary` (`get_monthly_summary` in `main.py`). -/
def get_monthly_summary (month year : Nat) (db : Store)
    (current_user : UserRec) : MonthlySummary :=
  crud.get_monthly_summary db month year current_user.id

/-- `GET /api/category-expenses` (`get_category_expenses` in `main.py`). -/
def get_category_expenses (month year : Nat) (db : Store)
    (current_user : UserRec) : List (String × Int) :=
  crud.get_category_expenses db month year current_user.id

/-- `POST /api/budget` (`create_budget` in `main.py`). -/
def create_budget (budget : BudgetCreate) (db : Store)
    (current_user : UserRec) : BudgetRec × Store :=
  crud.create_budget db budget current_user.id

/-- `GET /api/budget` (`get_budget` in `main.py`): response model
`BudgetResponse | None`, so an absent budget is returned as null, not an
error. -/
def get_budget (month year : Nat) (db : Store) (current_user : UserRec) :
    Option BudgetRec :=
  crud.get_budget db month year current_user.id

/-- `GET /api/daily-spending` (`get_daily_spending` in `main.py`). -/
def get_daily_spending (month year : Nat) (db : Store)
    (current_user : UserRec) : List (Nat × Int) :=
  crud.get_daily_spending db month year current_user.id

/-- `GET /api/yearly-expenses` (`get_yearly_expenses` in `main.py`). -/
def get_yearly_expenses (year : Nat) (db : Store) (current_user : UserRec) :
    List Int :=
  crud.get_yearly_expenses db year current_user.id

/-- `GET /api/admin/reset-db-force` (`reset_database_force` in
`main.py`): drops all tables and recreates them, leaving the empty
schema, with no authentication of any kind. -/
def reset_database_force (_db : Store) : String × Store :=
  ("Database has been reset successfully. All data deleted. New schema applied.",
   Store.empty)

end main

/-! ### The route table of `main.py` -/

/-- The HTTP routes registered on the FastAPI app in `main.py`. -/
inductive Route where
  | registerR | tokenR | rootR | dashboardR
  | ledgerCreate | ledgerList | ledgerUpdate | ledgerDelete
  | usersMe | apiSummary | apiCategoryExpenses
  | apiBudgetCreate | apiBudgetGet
  | apiDailySpending | apiYearlyExpenses
  | adminResetDbForce
deriving DecidableEq, Repr, Fintype

/-- Whether the route's handler declares `Depends(get_current_user)`,
i.e. requires a valid bearer token before its body runs. -/
def Route.requiresAuth : Route → Bool
  | .registerR | .tokenR | .rootR | .dashboardR | .adminResetDbForce => false
  | _ => true

/-- Whether the route's handler performs a ledger, aggregation, user or
other data operation (reads or writes database tables).  The two template
routes only render pages. -/
def Route.performsDataOperation : Route → Bool
  | .rootR | .dashboardR => false
  | _ => true

/-- Whether the route is one of the two page-rendering routes (`GET /`
and `GET /dashboard`). -/
def Route.isPageRendering : Route → Bool
  | .rootR | .dashboardR => true
  | _ => false

/-- The authentication-gate property claimed for the route table: every
route other than registration, login and page rendering that performs a
data operation requires a valid bearer token. -/
def authGateHolds : Prop :=
  ∀ r : Route, r ≠ Route.registerR → r ≠ Route.tokenR →
    r.isPageRendering = false → r.performsDataOperation = true →
    r.requiresAuth = true

instance : Decidable authGateHolds := by
  unfold authGateHolds
  infer_instance

/-! ### Derived views of the store used in statements -/

/-- The entries of the store owned by the given user id. -/
def Store.entriesOf (db : Store) (uid : Nat) : List Entry :=
  db.entries.filter (fun e => e.user_id == uid)

/-- The budgets of the store owned by the given user id. -/
def Store.budgetsOf (db : Store) (uid : Nat) : List BudgetRec :=
  db.budgets.filter (fun b => b.user_id == uid)

/-- The store with every entry and budget owned by the given user id
removed. -/
def Store.eraseUser (db : Store) (uid : Nat) : Store :=
  { db with
    entries := db.entries.filter (fun e => !(e.user_id == uid)),
    budgets := db.budgets.filter (fun b => !(b.user_id == uid)) }

/-- Total income named by the claim: the sum of the positive amounts
among the user's entries in the given month and year. -/
def incomeOf (month year user_id : Nat) (l : List Entry) : Int :=
  ((l.filter (fun e => inMonth month year user_id e && decide (0 < e.amount))).map
    Entry.amount).sum

/-- Total expense named by the claim: the sum of the absolute values of
the negative amounts among the user's entries in the given month and
year. -/
def expenseOf (month year user_id : Nat) (l : List Entry) : Int :=
  ((l.filter (isExpense month year user_id)).map (fun e => -e.amount)).sum

/-! ### Concrete data used by witnesses -/

/-- A concrete registration payload. -/
def aliceCreate : UserCreate :=
  { username := "alice", password := "pw1" }

/-- A store holding the single registered user alice. -/
def demoStore : Store := (register Store.empty aliceCreate).2

/-- The user record created for alice. -/
def alice : UserRec :=
  { id := 1, username := "alice", hashed_password := hashPassword "pw1" }

/-- A concrete ledger entry payload. -/
def foodEntry : FinanceCreate :=
  { amount := 100, category := "food", date := ⟨2024, 1, 5⟩,
    description := "groceries" }

/-- The demo store after alice records one entry. -/
def demoStore1 : Store := (crud.create demoStore foodEntry 1).2

/-! ### Helper lemmas on the aggregation fold -/

lemma incomeOf_nil (month year user_id : Nat) :
    incomeOf month year user_id [] = 0 := rfl

lemma expenseOf_nil (month year user_id : Nat) :
    expenseOf month year user_id [] = 0 := rfl

lemma summaryStep_foldl (month year user_id : Nat) (l : List Entry) (a b : Int) :
    l.foldl (summaryStep month year user_id) (a, b) =
      (a + incomeOf month year user_id l, b + expenseOf month year user_id l) := by
  induction l generalizing a b with
  | nil => simp [incomeOf, expenseOf]
  | cons e t ih =>
      by_cases hm : inMonth month year user_id e
      · rcases lt_trichotomy e.amount 0 with hneg | hzero | hpos
        · have h1 : ¬ (0 : Int) < e.amount := by omega
          have hstep : summaryStep month year user_id (a, b) e = (a, b - e.amount) := by
            simp [summaryStep, hm, h1, hneg]
          have hinc : incomeOf month year user_id (e :: t) =
              incomeOf month year user_id t := by
            simp [incomeOf, List.filter_cons, h1]
          have hexp : expenseOf month year user_id (e :: t) =
              -e.amount + expenseOf month year user_id t := by
            simp [expenseOf, List.filter_cons, isExpense, hm, hneg]
          rw [List.foldl_cons, hstep, ih, hinc, hexp]
          simp only [Prod.mk.injEq]
          exact ⟨trivial, by ring⟩
        · have h1 : ¬ (0 : Int) < e.amount := by omega
          have h2 : ¬ e.amount < 0 := by omega
          have hstep : summaryStep month year user_id (a, b) e = (a, b) := by
            simp [summaryStep, hm, h1, h2]
          have hinc : incomeOf month year user_id (e :: t) =
              incomeOf month year user_id t := by
            simp [incomeOf, List.filter_cons, h1]
          have hexp : expenseOf month year user_id (e :: t) =
              expenseOf month year user_id t := by
            simp [expenseOf, List.filter_cons, isExpense, h2]
          rw [List.foldl_cons, hstep, ih, hinc, hexp]
        · have h2 : ¬ e.amount < 0 := by omega
          have hstep : summaryStep month year user_id (a, b) e =
              (a + e.amount, b) := by
            simp [summaryStep, hm, hpos]
          have hinc : incomeOf month year user_id (e :: t) =
              e.amount + incomeOf month year user_id t := by
            simp [incomeOf, List.filter_cons, hm, hpos]
          have hexp : expenseOf month year user_id (e :: t) =
              expenseOf month year user_id t := by
            simp [expenseOf, List.filter_cons, isExpense, h2]
          rw [List.foldl_cons, hstep, ih, hinc, hexp]
          simp only [Prod.mk.injEq]
          exact ⟨by ring, trivial⟩
      · have hstep : summaryStep month year user_id (a, b) e = (a, b) := by
          simp [summaryStep, hm]
        have hinc : incomeOf month year user_id (e :: t) =
            incomeOf month year user_id t := by
          simp [incomeOf, List.filter_cons, hm]
        have hexp : expenseOf month year user_id (e :: t) =
            expenseOf month year user_id t := by
          simp [expenseOf, List.filter_cons, isExpense, hm]
        rw [List.foldl_cons, hstep, ih, hinc, hexp]

lemma foldl_summaryStep_filter (month year uid : Nat) (p : Entry → Bool)
    (hp : ∀ e, p e = false → inMonth month year uid e = false)
    (l : List Entry) (init : Int × Int) :
    (l.filter p).foldl (summaryStep month year uid) init =
      l.foldl (summaryStep month year uid) init := by
  induction l generalizing init with
  | nil => rfl
  | cons e t ih =>
      by_cases hpe : p e
      · rw [List.filter_cons_of_pos hpe, List.foldl_cons, List.foldl_cons]
        exact ih _
      · have hm := hp e (by simpa using hpe)
        rw [List.filter_cons_of_neg (by simpa using hpe), List.foldl_cons]
        rw [show summaryStep month year uid init e = init by
          simp [summaryStep, hm]]
        exact ih _

lemma find?_filter_of_imp {α : Type} (p q : α → Bool) (l : List α)
    (h : ∀ x, p x = true → q x = true) :
    (l.filter q).find? p = l.find? p := by
  induction l with
  | nil => rfl
  | cons x t ih =>
      by_cases hq : q x
      · by_cases hpx : p x
        · rw [List.filter_cons_of_pos hq, List.find?_cons_of_pos _ hpx,
              List.find?_cons_of_pos _ hpx]
        · rw [List.filter_cons_of_pos hq, List.find?_cons_of_neg _ (by simpa using hpx),
              List.find?_cons_of_neg _ (by simpa using hpx), ih]
      · have hpx : p x = false := by
          cases hpv : p x with
          | false => rfl
          | true => exact absurd (h x hpv) hq
        rw [List.filter_cons_of_neg (by simpa using hq),
            List.find?_cons_of_neg _ (by simp [hpx]), ih]

lemma filter_filter_of_imp {α : Type} (p q : α → Bool) (l : List α)
    (h : ∀ x, p x = true → q x = true) :
    (l.filter q).filter p = l.filter p := by
  induction l with
  | nil => rfl
  | cons x t ih =>
      by_cases hq : q x
      · by_cases hpx : p x
        · rw [List.filter_cons_of_pos hq, List.filter_cons_of_pos hpx,
              List.filter_cons_of_pos hpx, ih]
        · rw [List.filter_cons_of_pos hq,
              List.filter_cons_of_neg (by simpa using hpx),
              List.filter_cons_of_neg (by simpa using hpx), ih]
      · have hpx : p x = false := by
          cases hpv : p x with
          | false => rfl
          | true => exact absurd (h x hpv) hq
        rw [List.filter_cons_of_neg (by simpa using hq),
            List.filter_cons_of_neg (by simp [hpx]), ih]

lemma filter_map_of_fixed {α : Type} (p : α → Bool) (f : α → α) (l : List α)
    (h : ∀ x, (p x = true → f x = x) ∧ (p x = false → p (f x) = false)) :
    (l.map f).filter p = l.filter p := by
  induction l with
  | nil => rfl
  | cons x t ih =>
      rw [List.map_cons]
      by_cases hpx : p x
      · rw [(h x).1 hpx, List.filter_cons_of_pos hpx,
            List.filter_cons_of_pos hpx, ih]
      · have hfx := (h x).2 (by simpa using hpx)
        rw [List.filter_cons_of_neg (by simp [hfx]),
            List.filter_cons_of_neg (by simpa using hpx), ih]

lemma entriesFilter_eraseUser (db : Store) (b uid m y : Nat) (h : uid ≠ b) :
    (Store.eraseUser db b).entries.filter (isExpense m y uid) =
      db.entries.filter (isExpense m y uid) := by
  unfold Store.eraseUser
  apply filter_filter_of_imp
  intro x hpx
  have hm : inMonth m y uid x = true := by
    rw [isExpense, Bool.and_eq_true] at hpx
    exact hpx.1
  rw [inMonth, Bool.and_eq_true, Bool.and_eq_true] at hm
  have hx : x.user_id = uid := by simpa using hm.1.1
  simp [hx]
  omega

/-! ### Theorems -/

/-- C3: token verification fails with 401 when the token is malformed,
its signature key is wrong, or it is expired, and also when the embedded
identity resolves to no user; on success it returns the user record for
the embedded identity. -/
theorem get_current_user_spec (db : Store) (now : Nat) :
    (∀ raw, get_current_user (Token.malformed raw) db now = Except.error 401) ∧
    (∀ k p, k ≠ SECRET_KEY →
      get_current_user (Token.signed k p) db now = Except.error 401) ∧
    (∀ p, p.exp ≤ now →
      get_current_user (Token.signed SECRET_KEY p) db now = Except.error 401) ∧
    (∀ p username, now < p.exp → p.sub = some username →
      crud.get_user_by_username db username = none →
      get_current_user (Token.signed SECRET_KEY p) db now = Except.error 401) ∧
    (∀ p username user, now < p.exp → p.sub = some username →
      crud.get_user_by_username db username = some user →
      get_current_user (Token.signed SECRET_KEY p) db now = Except.ok user) := by
  refine ⟨fun raw => rfl, fun k p hk => ?_, fun p hexp => ?_,
    fun p username hexp hsub hnone => ?_, fun p username user hexp hsub hsome => ?_⟩
  · simp [get_current_user, jwtDecode, hk]
  · simp [get_current_user, jwtDecode, Nat.not_lt.mpr hexp]
  · simp [get_current_user, jwtDecode, hexp, hsub, hnone]
  · simp [get_current_user, jwtDecode, hexp, hsub, hsome]

/-- Witness for C3 at concrete inputs: a token signed with the wrong key
is rejected with 401. -/
theorem get_current_user_spec_witness :
    get_current_user (Token.signed "badkey" ⟨some "alice", 100⟩) demoStore 0 =
      Except.error 401 :=
  (get_current_user_spec demoStore 0).2.1 "badkey" ⟨some "alice", 100⟩ (by decide)

/-- C7: every token issued by a successful login is signed with the
application secret and expires exactly 30 minutes (1800 seconds) after
its issuance instant. -/
theorem login_token_expiry (db : Store) (username password : String)
    (now : Nat) (tok : Token)
    (h : login db username password now = Except.ok tok) :
    ∃ p, tok = Token.signed SECRET_KEY p ∧ p.exp = now + 30 * 60 := by
  unfold login at h
  cases hf : crud.get_user_by_username db username with
  | none => rw [hf] at h; exact absurd h (by simp)
  | some user =>
      rw [hf] at h
      by_cases hv : verifyPassword password user.hashed_password
      · simp only [hv, if_true] at h
        cases h
        exact ⟨_, rfl, rfl⟩
      · simp [hv] at h

/-- Witness for C7: logging in as alice at instant 0 yields a token
expiring at 1800 seconds. -/
theorem login_token_expiry_witness :
    ∃ p, Token.signed SECRET_KEY ⟨some "alice", 1800⟩ = Token.signed SECRET_KEY p ∧
      p.exp = 0 + 30 * 60 :=
  login_token_expiry demoStore "alice" "pw1" 0
    (Token.signed SECRET_KEY ⟨some "alice", 1800⟩) rfl

/-- C5: the first registration of a username creates a user whose stored
credential is the one-way hash of the password (never the plaintext) and
returns the new record; a second registration of the same username fails
with 400 and leaves the store unchanged. -/
theorem register_spec (db : Store) (u u2 : UserCreate)
    (hfresh : crud.get_user_by_username db u.username = none)
    (hsame : u2.username = u.username) :
    ∃ nu : UserRec,
      register db u =
        (Except.ok nu,
         { db with users := db.users ++ [nu],
                   nextUserId := db.nextUserId + 1 }) ∧
      nu.username = u.username ∧
      nu.hashed_password = hashPassword u.password ∧
      nu.hashed_password ≠ u.password ∧
      register (register db u).2 u2 = (Except.error 400, (register db u).2) := by
  have hreg : register db u =
      (Except.ok ({ id := db.nextUserId, username := u.username,
                    hashed_password := hashPassword u.password } : UserRec),
       { db with users := db.users ++
                    [{ id := db.nextUserId, username := u.username,
                       hashed_password := hashPassword u.password }],
                 nextUserId := db.nextUserId + 1 }) := by
    simp [register, crud.create_user, hfresh]
  refine ⟨_, hreg, rfl, rfl, ?_, ?_⟩
  · intro heq
    have h2 := congrArg String.data
      (show ("bcrypt$" ++ u.password : String) = u.password from heq)
    rw [String.data_append] at h2
    have h3 := congrArg List.length h2
    simp at h3
    omega
  · have h2 : crud.get_user_by_username (register db u).2 u2.username =
        some { id := db.nextUserId, username := u.username,
               hashed_password := hashPassword u.password } := by
      rw [hreg, hsame]
      unfold crud.get_user_by_username at hfresh ⊢
      simp only [List.find?_append, hfresh, Option.none_or]
      simp
    generalize hdb2 : (register db u).2 = db2 at h2 ⊢
    simp [register, h2]

/-- Witness for C5: registering alice on the empty store succeeds and
stores the hash; registering alice again fails with 400. -/
theorem register_spec_witness :
    ∃ nu : UserRec,
      register Store.empty aliceCreate =
        (Except.ok nu,
         { Store.empty with users := Store.empty.users ++ [nu],
                            nextUserId := Store.empty.nextUserId + 1 }) ∧
      nu.username = aliceCreate.username ∧
      nu.hashed_password = hashPassword aliceCreate.password ∧
      nu.hashed_password ≠ aliceCreate.password ∧
      register (register Store.empty aliceCreate).2 aliceCreate =
        (Except.error 400, (register Store.empty aliceCreate).2) :=
  register_spec Store.empty aliceCreate aliceCreate rfl rfl

/-- C6: update and delete answer 404 exactly when no entry with the given
id exists for the requesting user — so a foreign-owned id behaves like a
nonexistent one — and a 404 outcome leaves the store unchanged (delete
never silently succeeds on such an id). -/
theorem update_delete_notfound (db : Store) (id : Nat) (data : FinanceCreate)
    (user : UserRec) :
    ((main.update id data db user).1 = Except.error 404 ↔
      ∀ e ∈ db.entries, ¬(e.id = id ∧ e.user_id = user.id)) ∧
    ((main.update id data db user).1 = Except.error 404 →
      (main.update id data db user).2 = db) ∧
    ((main.delete id db user).1 = Except.error 404 ↔
      ∀ e ∈ db.entries, ¬(e.id = id ∧ e.user_id = user.id)) ∧
    ((main.delete id db user).1 = Except.error 404 →
      (main.delete id db user).2 = db) := by
  have hkey : ∀ e : Entry,
      crud.entryKey id user.id e = true ↔ e.id = id ∧ e.user_id = user.id := by
    intro e; simp [crud.entryKey]
  cases hf : db.entries.find? (crud.entryKey id user.id) with
  | none =>
      have hnone := List.find?_eq_none.mp hf
      have hall : ∀ e ∈ db.entries, ¬(e.id = id ∧ e.user_id = user.id) :=
        fun e he hc => hnone e he ((hkey e).mpr hc)
      have hu : main.update id data db user = (Except.error 404, db) := by
        simp [main.update, crud.update, hf]
      have hd : main.delete id db user = (Except.error 404, db) := by
        simp [main.delete, crud.delete, hf]
      rw [hu, hd]
      exact ⟨iff_of_true rfl hall, fun _ => rfl, iff_of_true rfl hall, fun _ => rfl⟩
  | some e =>
      have hmem := List.mem_of_find?_eq_some hf
      have hp := (hkey e).mp (List.find?_some hf)
      have hnall : ¬ ∀ x ∈ db.entries, ¬(x.id = id ∧ x.user_id = user.id) :=
        fun hall => hall e hmem hp
      have h1 : (main.update id data db user).1 ≠ Except.error 404 := by
        simp [main.update, crud.update, hf]
      have h3 : (main.delete id db user).1 ≠ Except.error 404 := by
        simp [main.delete, crud.delete, hf]
      exact ⟨iff_of_false h1 hnall, fun hc => absurd hc h1,
             iff_of_false h3 hnall, fun hc => absurd hc h3⟩

/-- Witness for C6: deleting entry id 99, which exists for no user, from
the demo store answers 404 and leaves the store unchanged. -/
theorem update_delete_notfound_witness :
    ((main.update 99 foodEntry demoStore1 alice).1 = Except.error 404 ↔
      ∀ e ∈ demoStore1.entries, ¬(e.id = 99 ∧ e.user_id = alice.id)) ∧
    ((main.update 99 foodEntry demoStore1 alice).1 = Except.error 404 →
      (main.update 99 foodEntry demoStore1 alice).2 = demoStore1) ∧
    ((main.delete 99 demoStore1 alice).1 = Except.error 404 ↔
      ∀ e ∈ demoStore1.entries, ¬(e.id = 99 ∧ e.user_id = alice.id)) ∧
    ((main.delete 99 demoStore1 alice).1 = Except.error 404 →
      (main.delete 99 demoStore1 alice).2 = demoStore1) :=
  update_delete_notfound demoStore1 99 foodEntry alice

/-- C9: getBudget returns the user's stored budget for (month, year) when
one exists and `none` when absent; it is a total function, so the absent
case is never an error. -/
theorem get_budget_spec (db : Store) (month year : Nat) (user : UserRec) :
    (∀ bg, main.get_budget month year db user = some bg →
      bg ∈ db.budgets ∧ bg.user_id = user.id ∧ bg.month = month ∧ bg.year = year) ∧
    (main.get_budget month year db user = none ↔
      ∀ bg ∈ db.budgets,
        ¬(bg.user_id = user.id ∧ bg.month = month ∧ bg.year = year)) := by
  constructor
  · intro bg h
    unfold main.get_budget crud.get_budget at h
    have hp := List.find?_some h
    have hmem := List.mem_of_find?_eq_some h
    simp only [Bool.and_eq_true, beq_iff_eq] at hp
    exact ⟨hmem, hp.1.1, hp.1.2, hp.2⟩
  · unfold main.get_budget crud.get_budget
    rw [List.find?_eq_none]
    constructor <;> intro hall bg hmem <;> have hb := hall bg hmem <;>
      simp only [Bool.and_eq_true, beq_iff_eq] at hb ⊢ <;> tauto

/-- Witness for C9: the demo store holds no budgets, so getBudget for
(1, 2024) returns `none`. -/
theorem get_budget_spec_witness :
    (∀ bg, main.get_budget 1 2024 demoStore1 alice = some bg →
      bg ∈ demoStore1.budgets ∧ bg.user_id = alice.id ∧
        bg.month = 1 ∧ bg.year = 2024) ∧
    (main.get_budget 1 2024 demoStore1 alice = none ↔
      ∀ bg ∈ demoStore1.budgets,
        ¬(bg.user_id = alice.id ∧ bg.month = 1 ∧ bg.year = 2024)) :=
  get_budget_spec demoStore1 1 2024 alice

/-- C10: a token minted by a successful login embeds the user's username
as the subject claim, and verifying it before expiry against the
unchanged store resolves back to the same user record. -/
theorem login_roundtrip (db : Store) (username password : String) (now : Nat)
    (tok : Token) (h : login db username password now = Except.ok tok) :
    ∃ user p, crud.get_user_by_username db username = some user ∧
      tok = Token.signed SECRET_KEY p ∧ p.sub = some user.username ∧
      ∀ now2, now2 < now + 30 * 60 →
        get_current_user tok db now2 = Except.ok user := by
  unfold login at h
  cases hf : crud.get_user_by_username db username with
  | none => rw [hf] at h; exact absurd h (by simp)
  | some user =>
      rw [hf] at h
      by_cases hv : verifyPassword password user.hashed_password
      · simp only [hv, if_true] at h
        cases h
        have huname : user.username = username := by
          have hp := List.find?_some
            (show db.users.find? (fun x => x.username == username) = some user from hf)
          simpa using hp
        refine ⟨user, _, rfl, rfl, rfl, fun now2 h2 => ?_⟩
        simp [get_current_user, jwtDecode, create_access_token,
          ACCESS_TOKEN_EXPIRE_MINUTES, h2, huname, hf]
      · simp [hv] at h

/-- Witness for C10: alice logs in at instant 0 and her token verifies
back to her record at instant 100. -/
theorem login_roundtrip_witness :
    ∃ user p, crud.get_user_by_username demoStore "alice" = some user ∧
      Token.signed SECRET_KEY ⟨some "alice", 1800⟩ = Token.signed SECRET_KEY p ∧
      p.sub = some user.username ∧
      ∀ now2, now2 < 0 + 30 * 60 →
        get_current_user (Token.signed SECRET_KEY ⟨some "alice", 1800⟩)
          demoStore now2 = Except.ok user :=
  login_roundtrip demoStore "alice" "pw1" 0
    (Token.signed SECRET_KEY ⟨some "alice", 1800⟩) rfl

/-- C4: the monthly summary reports total income equal to the sum of the
positive amounts, total expense equal to the sum of the absolute values
of the negative amounts, among the user's entries dated in the given
month and year, and net equal to total income minus total expense. -/
theorem monthly_summary_spec (db : Store) (month year : Nat) (user : UserRec) :
    main.get_monthly_summary month year db user =
      { total_income := incomeOf month year user.id db.entries,
        total_expense := expenseOf month year user.id db.entries,
        net := incomeOf month year user.id db.entries -
               expenseOf month year user.id db.entries } := by
  unfold main.get_monthly_summary crud.get_monthly_summary
  rw [summaryStep_foldl]
  simp

/-- C8: aggregation queries on windows with zero matching entries return
zero-valued aggregates, never errors; yearly expenses always has exactly
12 monthly buckets, each zero when its month has no entries. -/
theorem zero_matching_aggregates (db : Store) (user : UserRec) :
    (∀ month year, db.entries.filter (inMonth month year user.id) = [] →
      main.get_monthly_summary month year db user =
        { total_income := 0, total_expense := 0, net := 0 } ∧
      main.get_category_expenses month year db user = [] ∧
      main.get_daily_spending month year db user = []) ∧
    (∀ year, (main.get_yearly_expenses year db user).length = 12) ∧
    (∀ year m, m < 12 →
      db.entries.filter (inMonth (m + 1) year user.id) = [] →
      (main.get_yearly_expenses year db user)[m]? = some 0) := by
  refine ⟨fun month year h => ?_, fun year => ?_, fun year m hm h => ?_⟩
  · have hnone := List.filter_eq_nil_iff.mp h
    have hexp : db.entries.filter (isExpense month year user.id) = [] := by
      rw [List.filter_eq_nil_iff]
      intro e he hc
      rw [isExpense, Bool.and_eq_true] at hc
      exact hnone e he hc.1
    have hinc : db.entries.filter
        (fun e => inMonth month year user.id e && decide (0 < e.amount)) = [] := by
      rw [List.filter_eq_nil_iff]
      intro e he hc
      rw [Bool.and_eq_true] at hc
      exact hnone e he hc.1
    refine ⟨?_, ?_, ?_⟩
    · unfold main.get_monthly_summary crud.get_monthly_summary
      rw [summaryStep_foldl]
      simp [incomeOf, expenseOf, hinc, hexp]
    · simp [main.get_category_expenses, crud.get_category_expenses, hexp]
    · simp [main.get_daily_spending, crud.get_daily_spending, hexp]
  · simp [main.get_yearly_expenses, crud.get_yearly_expenses]
  · have hexp : db.entries.filter (isExpense (m + 1) year user.id) = [] := by
      rw [List.filter_eq_nil_iff]
      intro e he hc
      rw [isExpense, Bool.and_eq_true] at hc
      exact List.filter_eq_nil_iff.mp h e he hc.1
    unfold main.get_yearly_expenses crud.get_yearly_expenses
    rw [List.getElem?_map, List.getElem?_range hm]
    simp [hexp]

/-- Witness for C8 at concrete inputs: month 2 of 2024 has no entries in
the demo store, so its summary is all zeros, and yearly expenses for 2024
has 12 buckets with bucket 1 (February) zero. -/
theorem zero_matching_aggregates_witness :
    (main.get_monthly_summary 2 2024 demoStore1 alice =
      { total_income := 0, total_expense := 0, net := 0 } ∧
     main.get_category_expenses 2 2024 demoStore1 alice = [] ∧
     main.get_daily_spending 2 2024 demoStore1 alice = []) ∧
    (main.get_yearly_expenses 2024 demoStore1 alice).length = 12 ∧
    (main.get_yearly_expenses 2024 demoStore1 alice)[1]? = some 0 :=
  ⟨(zero_matching_aggregates demoStore1 alice).1 2 2024 (by decide),
   (zero_matching_aggregates demoStore1 alice).2.1 2024,
   (zero_matching_aggregates demoStore1 alice).2.2 2024 1 (by decide) (by decide)⟩

/-- C1: a request authenticated with a token resolving to user `ua` can
read or mutate only data owned by `ua`: listings and returned records are
owned by `ua`, every mutation preserves any other user's entries and
budgets, and every read-side query (monthly summary, budget, category
expenses, daily spending, yearly expenses) is unaffected by erasing any
other user's data from the store. -/
theorem cross_user_isolation (tok : Token) (db : Store) (now : Nat)
    (ua : UserRec) (b : Nat)
    (_hauth : get_current_user tok db now = Except.ok ua)
    (hne : ua.id ≠ b) :
    (∀ cat e, e ∈ main.get cat db ua → e.user_id ≠ b) ∧
    (∀ data, (main.create data db ua).1.user_id ≠ b ∧
      ((main.create data db ua).2).entriesOf b = db.entriesOf b) ∧
    (∀ id data,
      (∀ e, (main.update id data db ua).1 = Except.ok e → e.user_id ≠ b) ∧
      ((main.update id data db ua).2).entriesOf b = db.entriesOf b) ∧
    (∀ id, ((main.delete id db ua).2).entriesOf b = db.entriesOf b) ∧
    (∀ bud, ((main.create_budget bud db ua).2).budgetsOf b = db.budgetsOf b) ∧
    (∀ m y bg, main.get_budget m y db ua = some bg → bg.user_id ≠ b) ∧
    (∀ m y, main.get_monthly_summary m y db ua =
      main.get_monthly_summary m y (db.eraseUser b) ua) ∧
    (∀ m y, main.get_budget m y db ua = main.get_budget m y (db.eraseUser b) ua) ∧
    (∀ m y, main.get_category_expenses m y db ua =
      main.get_category_expenses m y (db.eraseUser b) ua) ∧
    (∀ m y, main.get_daily_spending m y db ua =
      main.get_daily_spending m y (db.eraseUser b) ua) ∧
    (∀ y, main.get_yearly_expenses y db ua =
      main.get_yearly_expenses y (db.eraseUser b) ua) := by
  have hAll : ∀ mo yr, (Store.eraseUser db b).entries.filter (isExpense mo yr ua.id) =
      db.entries.filter (isExpense mo yr ua.id) :=
    fun mo yr => entriesFilter_eraseUser db b ua.id mo yr hne
  refine ⟨?_, ?_, ?_, ?_, ?_, ?_, ?_, ?_, ?_, ?_, ?_⟩
  · intro cat e he
    have hmem := List.mem_filter.mp he
    have := hmem.2
    rw [Bool.and_eq_true] at this
    have h1 : e.user_id = ua.id := by simpa using this.1
    rw [h1]; exact hne
  · intro data
    refine ⟨hne, ?_⟩
    unfold main.create crud.create Store.entriesOf
    rw [List.filter_append]
    have hb : (ua.id == b) = false := by simpa using hne
    simp [hb]
  · intro id data
    cases hf : db.entries.find? (crud.entryKey id ua.id) with
    | none =>
        constructor
        · intro e he
          simp [main.update, crud.update, hf] at he
        · simp [main.update, crud.update, hf]
    | some e =>
        have hkey := List.find?_some hf
        rw [crud.entryKey, Bool.and_eq_true] at hkey
        have heid : e.user_id = ua.id := by simpa using hkey.2
        constructor
        · intro x hx
          simp only [main.update, crud.update, hf] at hx
          cases hx
          simpa [heid] using hne
        · simp only [main.update, crud.update, hf, Store.entriesOf]
          apply filter_map_of_fixed
          intro x
          constructor
          · intro hpx
            have hxb : x.user_id = b := by simpa using hpx
            have hk : crud.entryKey id ua.id x = false := by
              cases hv : crud.entryKey id ua.id x
              · rfl
              · exfalso
                rw [crud.entryKey, Bool.and_eq_true] at hv
                have : x.user_id = ua.id := by simpa using hv.2
                exact hne (by omega)
            simp [hk]
          · intro hpx
            by_cases hk : crud.entryKey id ua.id x
            · simp only [hk, if_true]
              simpa [heid] using hne
            · simpa [hk] using hpx
  · intro id
    cases hf : db.entries.find? (crud.entryKey id ua.id) with
    | none => simp [main.delete, crud.delete, hf]
    | some e =>
        simp only [main.delete, crud.delete, hf, Store.entriesOf]
        apply filter_filter_of_imp
        intro x hpx
        have hxb : x.user_id = b := by simpa using hpx
        have hk : crud.entryKey id ua.id x = false := by
          cases hv : crud.entryKey id ua.id x
          · rfl
          · exfalso
            rw [crud.entryKey, Bool.and_eq_true] at hv
            have : x.user_id = ua.id := by simpa using hv.2
            exact hne (by omega)
        simp [hk]
  · intro bud
    unfold main.create_budget crud.create_budget Store.budgetsOf
    rw [List.filter_append]
    have hb : (ua.id == b) = false := by simpa using hne
    simp [hb]
  · intro m y bg h
    unfold main.get_budget crud.get_budget at h
    have hp := List.find?_some h
    rw [Bool.and_eq_true, Bool.and_eq_true] at hp
    have : bg.user_id = ua.id := by simpa using hp.1.1
    rw [this]; exact hne
  · intro m y
    unfold main.get_monthly_summary crud.get_monthly_summary Store.eraseUser
    rw [foldl_summaryStep_filter]
    intro e hpe
    have heb : e.user_id = b := by simpa using hpe
    cases hv : inMonth m y ua.id e
    · rfl
    · exfalso
      rw [inMonth, Bool.and_eq_true, Bool.and_eq_true] at hv
      have : e.user_id = ua.id := by simpa using hv.1.1
      exact hne (by omega)
  · intro m y
    unfold main.get_budget crud.get_budget Store.eraseUser
    rw [find?_filter_of_imp]
    intro x hpx
    rw [Bool.and_eq_true, Bool.and_eq_true] at hpx
    have hx : x.user_id = ua.id := by simpa using hpx.1.1
    simp [hx]
    omega
  · intro m y
    simp only [main.get_category_expenses, crud.get_category_expenses, hAll]
  · intro m y
    simp only [main.get_daily_spending, crud.get_daily_spending, hAll]
  · intro y
    simp only [main.get_yearly_expenses, crud.get_yearly_expenses, hAll]

/-- Witness for C1 at concrete inputs: with alice authenticated and user
id 2 foreign, alice's monthly summary is unaffected by erasing user 2's
data, and deleting entry 1 as alice preserves user 2's entries. -/
theorem cross_user_isolation_witness :
    main.get_monthly_summary 1 2024 demoStore1 alice =
      main.get_monthly_summary 1 2024 (demoStore1.eraseUser 2) alice ∧
    ((main.delete 1 demoStore1 alice).2).entriesOf 2 = demoStore1.entriesOf 2 ∧
    main.get_category_expenses 1 2024 demoStore1 alice =
      main.get_category_expenses 1 2024 (demoStore1.eraseUser 2) alice ∧
    main.get_yearly_expenses 2024 demoStore1 alice =
      main.get_yearly_expenses 2024 (demoStore1.eraseUser 2) alice :=
  ⟨(cross_user_isolation (Token.signed SECRET_KEY ⟨some "alice", 1800⟩)
      demoStore1 100 alice 2 rfl (by decide)).2.2.2.2.2.2.1 1 2024,
   (cross_user_isolation (Token.signed SECRET_KEY ⟨some "alice", 1800⟩)
      demoStore1 100 alice 2 rfl (by decide)).2.2.2.1 1,
   (cross_user_isolation (Token.signed SECRET_KEY ⟨some "alice", 1800⟩)
      demoStore1 100 alice 2 rfl (by decide)).2.2.2.2.2.2.2.2.1 1 2024,
   (cross_user_isolation (Token.signed SECRET_KEY ⟨some "alice", 1800⟩)
      demoStore1 100 alice 2 rfl (by decide)).2.2.2.2.2.2.2.2.2.2 2024⟩

/-- C2 fails on the code: the schema-reset route `GET
/api/admin/reset-db-force` is neither registration, login nor page
rendering, requires no bearer token, and performs a destructive data
operation — resetting a store holding alice's data to the empty schema —
so the claimed authentication gate does not hold of the route table. -/
theorem reset_route_unauthenticated :
    ¬authGateHolds ∧
    Route.adminResetDbForce.requiresAuth = false ∧
    Route.adminResetDbForce.performsDataOperation = true ∧
    Route.adminResetDbForce.isPageRendering = false ∧
    Route.adminResetDbForce ≠ Route.registerR ∧
    Route.adminResetDbForce ≠ Route.tokenR ∧
    (main.reset_database_force demoStore1).2.entries = [] ∧
    demoStore1.entries ≠ [] := by
  refine ⟨?_, rfl, rfl, rfl, by decide, by decide, rfl, by decide⟩
  intro h
  exact absurd (h Route.adminResetDbForce (by decide) (by decide) rfl rfl)
    (by decide)
